import Mathlib

/-!
Shallow embedding of the `Kyzereye/elevator_sim_python` repository.

Times are modelled as rationals (seconds): in non-real-time mode every
duration in the program is an integer number of seconds, and in real-time
mode an interruptible sleep can end after a fractional elapsed time
(the code polls a shared flag every 100 ms), so `ℚ` covers all values.
Floors are integers (`ℤ`), as in the Python code.

The asynchronous keyboard-listener thread is modelled by an *interruption
oracle* argument to each interruptible sleep: `some e` means the shared
`close_door_pressed` flag is first observed set at elapsed time `e` during
that sleep, `none` means it is never observed set during that sleep.
Assignments to `current_state` are additionally recorded in a ghost
`state_trace` field so that "the state passes through X" is statable.
-/

namespace ElevatorSim

/-- Floor-range constants from `src/util/constants.py`. -/
def MIN_FLOOR : ℤ := 1

/-- Top floor, from `src/util/constants.py`. -/
def MAX_FLOOR : ℤ := 35

/-- `Elevator.DOOR_OPEN_TIME` (seconds), `src/classes/elevator.py`. -/
def DOOR_OPEN_TIME : ℚ := 2

/-- `Elevator.DOOR_CLOSE_TIME` (seconds), `src/classes/elevator.py`. -/
def DOOR_CLOSE_TIME : ℚ := 2

/-- `Elevator.PASSENGER_TRANSFER_TIME` (seconds), `src/classes/elevator.py`. -/
def PASSENGER_TRANSFER_TIME : ℚ := 4

/-- `Elevator.FLOOR_TRAVEL_TIME` (seconds per floor), `src/classes/elevator.py`. -/
def FLOOR_TRAVEL_TIME : ℚ := 10

/-- `FastElevator.FLOOR_TRAVEL_TIME` override, `src/classes/fast_elevator.py`. -/
def FAST_FLOOR_TRAVEL_TIME : ℚ := 5

/-- `validate_floor` from `src/util/helpers.py`: raises `ValueError` when the
floor is outside `[MIN_FLOOR, MAX_FLOOR]`. -/
def validate_floor (floor : ℤ) : Except String Unit :=
  if floor < MIN_FLOOR ∨ floor > MAX_FLOOR then
    .error "Floor is out of range. Valid floors are 1 to 35."
  else
    .ok ()

/-- The `current_state` strings of `Elevator` (`src/classes/elevator.py`). -/
inductive CarState where
  | idle
  | traveling
  | doors_open
  | transferring
  | doors_closing
deriving DecidableEq, Repr

/-- `Timer.calculate_travel_time` from `src/classes/timer.py`:
`floors * time_per_floor`. (`Timer.sleep` only blocks in real-time mode and
returns its argument, so it needs no model of its own.) -/
def Timer.calculate_travel_time (floors : ℤ) (time_per_floor : ℚ) : ℚ :=
  floors * time_per_floor

/-- The mutable state of an `Elevator` object (`src/classes/elevator.py`).
`floor_travel_time` holds the class constant `FLOOR_TRAVEL_TIME` (overridden
to 5 by `FastElevator`). `state_trace` is a ghost field recording every value
assigned to `current_state`, in order. -/
structure Elevator where
  floor_travel_time : ℚ
  current_floor : ℤ
  floors_to_visit : List ℤ
  real_time : Bool
  total_time : ℚ
  travel_time : ℚ
  door_operation_time : ℚ
  passenger_transfer_time : ℚ
  visited_floors : List ℤ
  close_door_pressed : Bool
  current_state : CarState
  skip_passenger_transfer : Bool
  state_trace : List CarState
deriving DecidableEq, Repr

namespace Elevator

/-- Assignment `self.current_state = st`, also recording it in the ghost trace. -/
def setState (s : Elevator) (st : CarState) : Elevator :=
  { s with current_state := st, state_trace := s.state_trace ++ [st] }

/-- `Elevator.__init__`: seeds the accumulators at 0, `visited_floors` with the
start floor, state `idle`, both flags cleared. The start floor goes through the
validating `current_floor` property setter, so construction fails on an
out-of-range start floor. -/
def init (ftt : ℚ) (start_floor : ℤ) (floors_to_visit : List ℤ) (real_time : Bool) :
    Except String Elevator := do
  let _ ← validate_floor start_floor
  pure {
    floor_travel_time := ftt
    current_floor := start_floor
    floors_to_visit := floors_to_visit
    real_time := real_time
    total_time := 0
    travel_time := 0
    door_operation_time := 0
    passenger_transfer_time := 0
    visited_floors := [start_floor]
    close_door_pressed := false
    current_state := .idle
    skip_passenger_transfer := false
    state_trace := [] }

/-- The value of `self.close_door_pressed.is_set()` observed by
`_interruptible_sleep`: if the flag is already set on entry the first poll
(elapsed 0) sees it; otherwise the oracle says when (if ever) the
asynchronously-set flag is first observed. -/
def observedSignal (s : Elevator) (intr : Option ℚ) : Option ℚ :=
  if s.close_door_pressed then some 0 else intr

/-- `Elevator._interruptible_sleep(duration, allow_close_button=True,
is_door_opening)` (the two call sites both pass `allow_close_button=True`).
If the close-door flag is observed set at elapsed `e < duration`, the sleep
returns `e`; during door opening it sets `skip_passenger_transfer` and leaves
the flag set, otherwise it clears the flag. With no observation it returns the
full duration. -/
def interruptibleSleep (s : Elevator) (duration : ℚ) (is_door_opening : Bool)
    (intr : Option ℚ) : ℚ × Elevator :=
  match s.observedSignal intr with
  | some e =>
    if 0 ≤ e ∧ e < duration then
      if is_door_opening then
        (e, { s with skip_passenger_transfer := true, close_door_pressed := true })
      else
        (e, { s with close_door_pressed := false })
    else
      (duration, s)
  | none => (duration, s)

/-- `Elevator.open_doors(floor)`: sets state `doors_open`; in real-time mode
performs the interruptible wait, otherwise returns `DOOR_OPEN_TIME` at once. -/
def open_doors (s : Elevator) (_floor : ℤ) (intr : Option ℚ) : ℚ × Elevator :=
  let s := s.setState .doors_open
  if s.real_time then s.interruptibleSleep DOOR_OPEN_TIME true intr
  else (DOOR_OPEN_TIME, s)

/-- `Elevator.close_doors(floor)`: clears the close-door flag if set, resets
`skip_passenger_transfer` unconditionally, passes through `doors_closing`,
sleeps the full non-interruptible `DOOR_CLOSE_TIME`, ends `idle`, and always
returns the full fixed duration. -/
def close_doors (s : Elevator) (_floor : ℤ) : ℚ × Elevator :=
  let s := { s with close_door_pressed := false }
  let s := { s with skip_passenger_transfer := false }
  let s := s.setState .doors_closing
  let s := s.setState .idle
  (DOOR_CLOSE_TIME, s)

/-- `Elevator.transfer_passengers(floor)`: if `skip_passenger_transfer` is set,
clears it and returns 0 with no wait and no state change; otherwise sets state
`transferring` and waits (interruptibly in real-time mode). -/
def transfer_passengers (s : Elevator) (_floor : ℤ) (intr : Option ℚ) : ℚ × Elevator :=
  if s.skip_passenger_transfer then
    (0, { s with skip_passenger_transfer := false })
  else
    let s := s.setState .transferring
    if s.real_time then s.interruptibleSleep PASSENGER_TRANSFER_TIME false intr
    else (PASSENGER_TRANSFER_TIME, s)

/-- `Elevator.travel_to_floor(target_floor)`: computes
`abs(target - current) * FLOOR_TRAVEL_TIME` via `Timer.calculate_travel_time`;
when the distance is positive it sets state `traveling` and sleeps
(non-interruptibly) for the whole travel time. `current_floor` is not updated
here but by the caller (`visit_floor`). -/
def travel_to_floor (s : Elevator) (target_floor : ℤ) : ℚ × Elevator :=
  let floors_to_travel : ℤ := |target_floor - s.current_floor|
  let travel_time := Timer.calculate_travel_time floors_to_travel s.floor_travel_time
  if floors_to_travel > 0 then
    (travel_time, s.setState .traveling)
  else
    (travel_time, s)

/-- Assignment through the validating `current_floor` property setter
(integer-typed call sites: `visit_floor`). Raises when out of range. -/
def set_current_floor (s : Elevator) (v : ℤ) : Except String Elevator := do
  let _ ← validate_floor v
  pure { s with current_floor := v }

/-- `Elevator.visit_floor(target_floor)`: travel, update `current_floor`
through the validating setter, append to `visited_floors`, open doors,
transfer passengers, close doors; returns
`(total, doors, passengers, travel)` elapsed for this floor and the new
state. `intrO`/`intrT` are the interruption oracles for the door-open and
transfer waits. -/
def visit_floor (s : Elevator) (target_floor : ℤ) (intrO intrT : Option ℚ) :
    Except String ((ℚ × ℚ × ℚ × ℚ) × Elevator) := do
  let (t_travel, s) := s.travel_to_floor target_floor
  let s ← s.set_current_floor target_floor
  let s := { s with visited_floors := s.visited_floors ++ [target_floor] }
  let (t_open, s) := s.open_doors target_floor intrO
  let (t_transfer, s) := s.transfer_passengers target_floor intrT
  let (t_close, s) := s.close_doors target_floor
  let t_doors := t_open + t_close
  pure ((t_doors + t_transfer + t_travel, t_doors, t_transfer, t_travel), s)

/-- One iteration of the `for floor in self.floors_to_visit` loop in
`Elevator.run`: the already-at-floor branch does door open / transfer / close
only; the other branch does a full `visit_floor`. Oracles `o.1`/`o.2` feed the
door-open and transfer waits of this iteration. -/
def runStep (s : Elevator) (floor : ℤ) (o : Option ℚ × Option ℚ) :
    Except String Elevator :=
  if floor = s.current_floor then
    let (door_open, s) := s.open_doors floor o.1
    let (passenger_transfer, s) := s.transfer_passengers floor o.2
    let (door_close, s) := s.close_doors floor
    .ok { s with
      door_operation_time := s.door_operation_time + (door_open + door_close)
      passenger_transfer_time := s.passenger_transfer_time + passenger_transfer
      total_time := s.total_time + (door_open + door_close + passenger_transfer) }
  else do
    let ((time_elapsed, t_doors, t_passengers, t_travel), s) ←
      s.visit_floor floor o.1 o.2
    pure { s with
      travel_time := s.travel_time + t_travel
      door_operation_time := s.door_operation_time + t_doors
      passenger_transfer_time := s.passenger_transfer_time + t_passengers
      total_time := s.total_time + time_elapsed }

/-- The `for` loop of `Elevator.run` over a floor list, with an oracle stream
`env` giving the interruption oracles of the successive iterations. -/
def runLoop (s : Elevator) (floors : List ℤ) (env : ℕ → Option ℚ × Option ℚ) :
    Except String Elevator :=
  match floors with
  | [] => .ok s
  | f :: rest => do
    let s' ← s.runStep f (env 0)
    s'.runLoop rest (fun n => env (n + 1))

/-- `Elevator.run()`: iterates `floors_to_visit` and returns
`(total_time, visited_floors)` together with the final object state. -/
def run (s : Elevator) (env : ℕ → Option ℚ × Option ℚ) :
    Except String ((ℚ × List ℤ) × Elevator) := do
  let s' ← s.runLoop s.floors_to_visit env
  pure ((s'.total_time, s'.visited_floors), s')

end Elevator

/-- `FastElevator.run` only prints a banner and calls `Elevator.run`; the only
behavioural difference is the overridden `FLOOR_TRAVEL_TIME = 5` used at
construction. -/
def FastElevator.init (start_floor : ℤ) (floors_to_visit : List ℤ) (real_time : Bool) :
    Except String Elevator :=
  Elevator.init FAST_FLOOR_TRAVEL_TIME start_floor floors_to_visit real_time

/-- The legacy `ElevatorSimulator` of `src/elevator_sim.py`: same bookkeeping,
no state machine, no flags, no floor validation on assignment. -/
structure ElevatorSimulator where
  current_floor : ℤ
  floors_to_visit : List ℤ
  real_time : Bool
  total_time : ℚ
  travel_time : ℚ
  door_operation_time : ℚ
  passenger_transfer_time : ℚ
  visited_floors : List ℤ
deriving DecidableEq, Repr

namespace ElevatorSimulator

/-- `ElevatorSimulator.__init__`. -/
def init (start_floor : ℤ) (floors_to_visit : List ℤ) (real_time : Bool) :
    ElevatorSimulator :=
  { current_floor := start_floor
    floors_to_visit := floors_to_visit
    real_time := real_time
    total_time := 0
    travel_time := 0
    door_operation_time := 0
    passenger_transfer_time := 0
    visited_floors := [start_floor] }

/-- `ElevatorSimulator.travel_to_floor`. -/
def travel_to_floor (s : ElevatorSimulator) (target_floor : ℤ) : ℚ :=
  (|target_floor - s.current_floor| : ℤ) * FLOOR_TRAVEL_TIME

/-- `ElevatorSimulator.visit_floor`. -/
def visit_floor (s : ElevatorSimulator) (target_floor : ℤ) :
    (ℚ × ℚ × ℚ × ℚ) × ElevatorSimulator :=
  let t_travel := s.travel_to_floor target_floor
  let s := { s with
    current_floor := target_floor
    visited_floors := s.visited_floors ++ [target_floor] }
  let t_doors := DOOR_OPEN_TIME + DOOR_CLOSE_TIME
  let t_passengers := PASSENGER_TRANSFER_TIME
  ((t_doors + t_passengers + t_travel, t_doors, t_passengers, t_travel), s)

/-- One iteration of the legacy run loop. -/
def runStep (s : ElevatorSimulator) (floor : ℤ) : ElevatorSimulator :=
  if floor = s.current_floor then
    { s with
      door_operation_time := s.door_operation_time + (DOOR_OPEN_TIME + DOOR_CLOSE_TIME)
      passenger_transfer_time := s.passenger_transfer_time + PASSENGER_TRANSFER_TIME
      total_time := s.total_time +
        (DOOR_OPEN_TIME + DOOR_CLOSE_TIME + PASSENGER_TRANSFER_TIME) }
  else
    let ((time_elapsed, t_doors, t_passengers, t_travel), s) := s.visit_floor floor
    { s with
      travel_time := s.travel_time + t_travel
      door_operation_time := s.door_operation_time + t_doors
      passenger_transfer_time := s.passenger_transfer_time + t_passengers
      total_time := s.total_time + time_elapsed }

/-- The legacy run loop over a floor list. -/
def runLoop (s : ElevatorSimulator) (floors : List ℤ) : ElevatorSimulator :=
  match floors with
  | [] => s
  | f :: rest => (s.runStep f).runLoop rest

/-- `ElevatorSimulator.run()`: returns `(total_time, visited_floors)` and the
final state. -/
def run (s : ElevatorSimulator) : (ℚ × List ℤ) × ElevatorSimulator :=
  let s' := s.runLoop s.floors_to_visit
  ((s'.total_time, s'.visited_floors), s')

end ElevatorSimulator

/-! ### Derived closed forms of the run loop

Pure auxiliary functions describing the result of the run loop, proved below
to coincide with `Elevator.runLoop` in non-real-time mode. -/

/-- The car's floor after servicing a floor list. -/
def lastFloor (cur : ℤ) : List ℤ → ℤ
  | [] => cur
  | f :: rest => lastFloor f rest

/-- Total number of floors crossed while servicing a floor list in order. -/
def totalDist (cur : ℤ) : List ℤ → ℤ
  | [] => 0
  | f :: rest => |f - cur| + totalDist f rest

/-- The floors appended to `visited_floors` while servicing a floor list:
a floor equal to the current one is not appended. -/
def visitedAdds (cur : ℤ) : List ℤ → List ℤ
  | [] => []
  | f :: rest => if f = cur then visitedAdds cur rest else f :: visitedAdds f rest

/-- Closed form of one legacy loop iteration. -/
def ElevatorSimulator.runStepSpec (s : ElevatorSimulator) (f : ℤ) : ElevatorSimulator :=
  if f = s.current_floor then
    { s with
      door_operation_time := s.door_operation_time + (DOOR_OPEN_TIME + DOOR_CLOSE_TIME)
      passenger_transfer_time := s.passenger_transfer_time + PASSENGER_TRANSFER_TIME
      total_time := s.total_time +
        (DOOR_OPEN_TIME + DOOR_CLOSE_TIME + PASSENGER_TRANSFER_TIME) }
  else
    { s with
      current_floor := f
      visited_floors := s.visited_floors ++ [f]
      travel_time := s.travel_time + (|f - s.current_floor| : ℤ) * FLOOR_TRAVEL_TIME
      door_operation_time := s.door_operation_time + (DOOR_OPEN_TIME + DOOR_CLOSE_TIME)
      passenger_transfer_time := s.passenger_transfer_time + PASSENGER_TRANSFER_TIME
      total_time := s.total_time +
        ((DOOR_OPEN_TIME + DOOR_CLOSE_TIME) + PASSENGER_TRANSFER_TIME +
          (|f - s.current_floor| : ℤ) * FLOOR_TRAVEL_TIME) }

/-- The oracle stream of a run with no interruption. -/
def noInterrupts : ℕ → Option ℚ × Option ℚ := fun _ => (none, none)

/-- The freshly constructed standard elevator of the `start=12 floor=2,9,1,32`
scenario. -/
def stdStart : Elevator :=
  { floor_travel_time := FLOOR_TRAVEL_TIME, current_floor := 12,
    floors_to_visit := [2, 9, 1, 32], real_time := false, total_time := 0,
    travel_time := 0, door_operation_time := 0, passenger_transfer_time := 0,
    visited_floors := [12], close_door_pressed := false, current_state := .idle,
    skip_passenger_transfer := false, state_trace := [] }

/-- A real-time car at floor 5, used to witness the interruption scenario. -/
def realTimeStart : Elevator :=
  { floor_travel_time := FLOOR_TRAVEL_TIME, current_floor := 5,
    floors_to_visit := [7], real_time := true, total_time := 0,
    travel_time := 0, door_operation_time := 0, passenger_transfer_time := 0,
    visited_floors := [5], close_door_pressed := false, current_state := .idle,
    skip_passenger_transfer := false, state_trace := [] }

/-- A Python value passed to the `current_floor` property setter: either an
`int` or a value of some other type (the setter's `isinstance` check). -/
inductive PyValue where
  | intVal (n : ℤ)
  | nonIntVal (typeName : String)

/-- The `current_floor` property setter of `Elevator`: rejects non-integer
values (`TypeError`) and out-of-range integers (`ValueError` via
`validate_floor`), then stores the value. -/
def Elevator.current_floor_setter (s : Elevator) (v : PyValue) : Except String Elevator :=
  match v with
  | .intVal n => s.set_current_floor n
  | .nonIntVal t => .error ("Floor must be an integer. Got: " ++ t)

/-! ### Input parsing (`parse_input` in `src/util/helpers.py`)

Strings are modelled as `List Char`. `parse_input` is a pure function from the
input string to the parsed data, so it cannot mutate any Car state. -/

/-- ASCII whitespace stripped by Python's `str.strip()`. -/
def isPySpace (c : Char) : Bool :=
  c = ' ' ∨ c = '\t' ∨ c = '\n' ∨ c = '\r' ∨ c = '\x0b' ∨ c = '\x0c'

/-- Python `str.strip()`. -/
def pyStrip (s : List Char) : List Char :=
  ((s.dropWhile isPySpace).reverse.dropWhile isPySpace).reverse

/-- Index of the first occurrence of `pat` in `s` (Python `str.find`);
`none` when absent (so `isSome` is Python's `in` test). -/
def findSubstring (s pat : List Char) : Option ℕ :=
  match s with
  | [] => if pat.isEmpty then some 0 else none
  | c :: rest =>
    if pat.isPrefixOf (c :: rest) then some 0
    else (findSubstring rest pat).map (· + 1)

/-- Python `str.split(",")`. -/
def splitComma : List Char → List (List Char)
  | [] => [[]]
  | c :: rest =>
    if c = ',' then [] :: splitComma rest
    else
      match splitComma rest with
      | [] => [[c]]
      | p :: ps => (c :: p) :: ps

/-- Numeric value of a digit string. -/
def digitsVal (s : List Char) : ℕ :=
  s.foldl (fun acc c => acc * 10 + (c.toNat - Char.toNat (Char.ofNat 48))) 0

/-- Python `int(str)` as used by the parser: optional sign followed by one or
more ASCII digits, surrounding whitespace tolerated; `none` models the
`ValueError`. (Underscore separators and non-ASCII digits accepted by CPython
are not modelled.) -/
def pyInt (s₀ : List Char) : Option ℤ :=
  let s := pyStrip s₀
  match s with
  | '+' :: rest =>
    if rest ≠ [] ∧ rest.all Char.isDigit then some (digitsVal rest) else none
  | '-' :: rest =>
    if rest ≠ [] ∧ rest.all Char.isDigit then some (-(digitsVal rest : ℤ)) else none
  | _ => if s ≠ [] ∧ s.all Char.isDigit then some (digitsVal s) else none

/-- The `"start="` marker. -/
def startMarker : List Char := "start=".data

/-- The `"floor="` marker. -/
def floorMarker : List Char := "floor=".data

/-- `start_floor_str`: the stripped slice between `start=` and `floor=` (or to
the end when `start=` comes second), computed on the stripped input. -/
def startFloorStr (input : List Char) : List Char :=
  let start_idx := (findSubstring input startMarker).getD 0
  let floor_idx := (findSubstring input floorMarker).getD 0
  if start_idx < floor_idx then
    pyStrip ((input.drop (start_idx + 6)).take (floor_idx - (start_idx + 6)))
  else
    pyStrip (input.drop (start_idx + 6))

/-- `floors_str`: the stripped tail after `floor=`, computed on the stripped
input. -/
def floorsStr (input : List Char) : List Char :=
  pyStrip (input.drop ((findSubstring input floorMarker).getD 0 + 6))

/-- The comma-separated floor entries, stripped, blanks dropped — exactly the
elements converted by the comprehension
`[int(f.strip()) for f in floors_str.split(",") if f.strip()]`. -/
def cleanedEntries (input : List Char) : List (List Char) :=
  ((splitComma (floorsStr input)).map pyStrip).filter (· ≠ [])

/-- `int()` applied to each entry; `none` when any entry fails, like the
comprehension. -/
def intListOfEntries : List (List Char) → Option (List ℤ)
  | [] => some []
  | e :: rest =>
    match pyInt e, intListOfEntries rest with
    | some n, some l => some (n :: l)
    | _, _ => none

/-- The `for f in floors_str.split(",")` loop of `parse_input`: a blank entry
is skipped; a non-blank entry re-evaluates the whole comprehension, replacing
`floors` on success and raising on its failure. -/
def floorsLoop (input : List Char) : List (List Char) → List ℤ → Except String (List ℤ)
  | [], floors => .ok floors
  | f :: rest, floors =>
    if pyStrip f = [] then floorsLoop input rest floors
    else
      match intListOfEntries (cleanedEntries input) with
      | some l => floorsLoop input rest l
      | none => .error "All floors must be numbers."

/-- `parse_input` from `src/util/helpers.py`. -/
def parse_input (input₀ : List Char) : Except String (ℤ × List ℤ) :=
  let input := pyStrip input₀
  if (findSubstring input startMarker).isNone ∨
      (findSubstring input floorMarker).isNone then
    .error "Invalid input format. Expected: start=X floor=Y,Z,..."
  else
    let start_floor_str := startFloorStr input
    let floors_str := floorsStr input
    if start_floor_str = [] then
      .error "Start floor cannot be empty."
    else
      match pyInt start_floor_str with
      | none => .error "Start floor must be a number."
      | some start_floor =>
        if floors_str = [] then
          .error "Floor list cannot be empty."
        else
          match floorsLoop input (splitComma floors_str) [] with
          | .error e => .error e
          | .ok floors =>
            if floors = [] then
              .error "At least one floor must be specified in the floor list."
            else
              .ok (start_floor, floors)

namespace Elevator

/-- Closed form of one non-real-time iteration of the run loop (shown equal to
`Elevator.runStep` in `runStep_eq_spec`). -/
def runStepSpec (s : Elevator) (f : ℤ) : Elevator :=
  if f = s.current_floor then
    { s with
      door_operation_time := s.door_operation_time + (DOOR_OPEN_TIME + DOOR_CLOSE_TIME)
      passenger_transfer_time := s.passenger_transfer_time + PASSENGER_TRANSFER_TIME
      total_time := s.total_time +
        (DOOR_OPEN_TIME + DOOR_CLOSE_TIME + PASSENGER_TRANSFER_TIME)
      close_door_pressed := false
      current_state := .idle
      skip_passenger_transfer := false
      state_trace := s.state_trace ++
        [.doors_open, .transferring, .doors_closing, .idle] }
  else
    { s with
      current_floor := f
      visited_floors := s.visited_floors ++ [f]
      travel_time := s.travel_time + (|f - s.current_floor| : ℤ) * s.floor_travel_time
      door_operation_time := s.door_operation_time + (DOOR_OPEN_TIME + DOOR_CLOSE_TIME)
      passenger_transfer_time := s.passenger_transfer_time + PASSENGER_TRANSFER_TIME
      total_time := s.total_time +
        ((DOOR_OPEN_TIME + DOOR_CLOSE_TIME) + PASSENGER_TRANSFER_TIME +
          (|f - s.current_floor| : ℤ) * s.floor_travel_time)
      close_door_pressed := false
      current_state := .idle
      skip_passenger_transfer := false
      state_trace := s.state_trace ++
        [.traveling, .doors_open, .transferring, .doors_closing, .idle] }

/-- Closed form of the whole non-real-time run loop. -/
def runLoopSpec (s : Elevator) : List ℤ → Elevator
  | [] => s
  | f :: rest => (s.runStepSpec f).runLoopSpec rest

@[simp] theorem ok_bind {ε α β : Type} (a : α) (g : α → Except ε β) :
    (Except.ok a : Except ε α) >>= g = g a := rfl

@[simp] theorem error_bind {ε α β : Type} (e : ε) (g : α → Except ε β) :
    (Except.error e : Except ε α) >>= g = .error e := rfl

@[simp] theorem bind_pure_ok {ε α β : Type} (a : α) (g : α → Except ε β) :
    (pure a : Except ε α) >>= g = g a := rfl

@[simp] theorem pure_eq_ok {ε α : Type} (a : α) :
    (pure a : Except ε α) = .ok a := rfl

theorem validate_floor_ok {f : ℤ} (h : MIN_FLOOR ≤ f ∧ f ≤ MAX_FLOOR) :
    validate_floor f = .ok () := by
  have h' : ¬(f < MIN_FLOOR ∨ f > MAX_FLOOR) := by
    simp only [MIN_FLOOR, MAX_FLOOR] at *
    omega
  simp [validate_floor, h']

/-- In non-real-time mode with the skip flag clear, one loop iteration over a
floor inside the valid range computes `runStepSpec`. -/
theorem runStep_eq_spec (s : Elevator) (f : ℤ) (o : Option ℚ × Option ℚ)
    (hrt : s.real_time = false) (hskip : s.skip_passenger_transfer = false)
    (hv : f = s.current_floor ∨ (MIN_FLOOR ≤ f ∧ f ≤ MAX_FLOOR)) :
    s.runStep f o = .ok (s.runStepSpec f) := by
  by_cases hf : f = s.current_floor
  · simp [runStep, runStepSpec, hf, open_doors, transfer_passengers, close_doors,
      setState, hrt, hskip]
  · have hval : validate_floor f = .ok () := validate_floor_ok (hv.resolve_left hf)
    have hpos : (0 : ℤ) < |f - s.current_floor| :=
      abs_pos.mpr (sub_ne_zero.mpr hf)
    simp [runStep, runStepSpec, hf, visit_floor, travel_to_floor,
      Timer.calculate_travel_time, set_current_floor, hval, open_doors,
      transfer_passengers, close_doors, setState, hrt, hskip, hpos,
      Except.bind]

@[simp] theorem runStepSpec_current_floor (s : Elevator) (f : ℤ) :
    (s.runStepSpec f).current_floor = f := by
  by_cases h : f = s.current_floor <;> simp [runStepSpec, h]

@[simp] theorem runStepSpec_real_time (s : Elevator) (f : ℤ) :
    (s.runStepSpec f).real_time = s.real_time := by
  by_cases h : f = s.current_floor <;> simp [runStepSpec, h]

@[simp] theorem runStepSpec_floor_travel_time (s : Elevator) (f : ℤ) :
    (s.runStepSpec f).floor_travel_time = s.floor_travel_time := by
  by_cases h : f = s.current_floor <;> simp [runStepSpec, h]

@[simp] theorem runStepSpec_skip (s : Elevator) (f : ℤ) :
    (s.runStepSpec f).skip_passenger_transfer = false := by
  by_cases h : f = s.current_floor <;> simp [runStepSpec, h]

theorem runStepSpec_travel_time (s : Elevator) (f : ℤ) :
    (s.runStepSpec f).travel_time =
      s.travel_time + (|f - s.current_floor| : ℤ) * s.floor_travel_time := by
  by_cases h : f = s.current_floor <;> simp [runStepSpec, h]

theorem runStepSpec_door_operation_time (s : Elevator) (f : ℤ) :
    (s.runStepSpec f).door_operation_time =
      s.door_operation_time + (DOOR_OPEN_TIME + DOOR_CLOSE_TIME) := by
  by_cases h : f = s.current_floor <;> simp [runStepSpec, h]

theorem runStepSpec_passenger_transfer_time (s : Elevator) (f : ℤ) :
    (s.runStepSpec f).passenger_transfer_time =
      s.passenger_transfer_time + PASSENGER_TRANSFER_TIME := by
  by_cases h : f = s.current_floor <;> simp [runStepSpec, h]

theorem runStepSpec_total_time (s : Elevator) (f : ℤ) :
    (s.runStepSpec f).total_time =
      s.total_time + (DOOR_OPEN_TIME + DOOR_CLOSE_TIME + PASSENGER_TRANSFER_TIME) +
        (|f - s.current_floor| : ℤ) * s.floor_travel_time := by
  by_cases h : f = s.current_floor
  · simp [runStepSpec, h]
  · simp only [runStepSpec, if_neg h]
    ring

theorem runStepSpec_visited_floors (s : Elevator) (f : ℤ) :
    (s.runStepSpec f).visited_floors =
      s.visited_floors ++ (if f = s.current_floor then [] else [f]) := by
  by_cases h : f = s.current_floor <;> simp [runStepSpec, h]

/-- In non-real-time mode with the skip flag clear, the run loop over a list of
in-range floors never fails and computes `runLoopSpec`. -/
theorem runLoop_eq_spec (floors : List ℤ) (s : Elevator) (env : ℕ → Option ℚ × Option ℚ)
    (hrt : s.real_time = false) (hskip : s.skip_passenger_transfer = false)
    (hv : ∀ f ∈ floors, MIN_FLOOR ≤ f ∧ f ≤ MAX_FLOOR) :
    s.runLoop floors env = .ok (s.runLoopSpec floors) := by
  induction floors generalizing s env with
  | nil => simp [runLoop, runLoopSpec]
  | cons f rest ih =>
    have hstep := runStep_eq_spec s f (env 0) hrt hskip (.inr (hv f (by simp)))
    have ihs := ih (s.runStepSpec f) (fun n => env (n + 1))
      (by simp [hrt]) (by simp)
      (fun g hg => hv g (by simp [hg]))
    simp [runLoop, runLoopSpec, hstep, ihs]

theorem runLoopSpec_real_time (s : Elevator) (floors : List ℤ) :
    (s.runLoopSpec floors).real_time = s.real_time := by
  induction floors generalizing s with
  | nil => rfl
  | cons f rest ih => simp [runLoopSpec, ih]

theorem runLoopSpec_floor_travel_time (s : Elevator) (floors : List ℤ) :
    (s.runLoopSpec floors).floor_travel_time = s.floor_travel_time := by
  induction floors generalizing s with
  | nil => rfl
  | cons f rest ih => simp [runLoopSpec, ih]

theorem runLoopSpec_current_floor (s : Elevator) (floors : List ℤ) :
    (s.runLoopSpec floors).current_floor = lastFloor s.current_floor floors := by
  induction floors generalizing s with
  | nil => rfl
  | cons f rest ih => simp [runLoopSpec, lastFloor, ih]

theorem runLoopSpec_travel_time (s : Elevator) (floors : List ℤ) :
    (s.runLoopSpec floors).travel_time =
      s.travel_time + (totalDist s.current_floor floors : ℤ) * s.floor_travel_time := by
  induction floors generalizing s with
  | nil => simp [runLoopSpec, totalDist]
  | cons f rest ih =>
    rw [runLoopSpec, ih, runStepSpec_travel_time]
    simp only [runStepSpec_current_floor, runStepSpec_floor_travel_time, totalDist]
    push_cast
    ring

theorem runLoopSpec_door_operation_time (s : Elevator) (floors : List ℤ) :
    (s.runLoopSpec floors).door_operation_time =
      s.door_operation_time + (DOOR_OPEN_TIME + DOOR_CLOSE_TIME) * floors.length := by
  induction floors generalizing s with
  | nil => simp [runLoopSpec]
  | cons f rest ih =>
    rw [runLoopSpec, ih, runStepSpec_door_operation_time]
    simp only [List.length_cons]
    push_cast
    ring

theorem runLoopSpec_passenger_transfer_time (s : Elevator) (floors : List ℤ) :
    (s.runLoopSpec floors).passenger_transfer_time =
      s.passenger_transfer_time + PASSENGER_TRANSFER_TIME * floors.length := by
  induction floors generalizing s with
  | nil => simp [runLoopSpec]
  | cons f rest ih =>
    rw [runLoopSpec, ih, runStepSpec_passenger_transfer_time]
    simp only [List.length_cons]
    push_cast
    ring

theorem runLoopSpec_total_time (s : Elevator) (floors : List ℤ) :
    (s.runLoopSpec floors).total_time =
      s.total_time +
        (DOOR_OPEN_TIME + DOOR_CLOSE_TIME + PASSENGER_TRANSFER_TIME) * floors.length +
        (totalDist s.current_floor floors : ℤ) * s.floor_travel_time := by
  induction floors generalizing s with
  | nil => simp [runLoopSpec, totalDist]
  | cons f rest ih =>
    rw [runLoopSpec, ih, runStepSpec_total_time]
    simp only [runStepSpec_current_floor, runStepSpec_floor_travel_time,
      List.length_cons, totalDist]
    push_cast
    ring

theorem runLoopSpec_visited_floors (s : Elevator) (floors : List ℤ) :
    (s.runLoopSpec floors).visited_floors =
      s.visited_floors ++ visitedAdds s.current_floor floors := by
  induction floors generalizing s with
  | nil => simp [runLoopSpec, visitedAdds]
  | cons f rest ih =>
    rw [runLoopSpec, ih, runStepSpec_visited_floors]
    by_cases h : f = s.current_floor <;>
      simp [visitedAdds, h, runStepSpec_current_floor]

/-- The state returned by an interruptible sleep is the input state with at
most the two flags changed. -/
theorem interruptibleSleep_snd (s : Elevator) (d : ℚ) (b : Bool) (intr : Option ℚ) :
    (s.interruptibleSleep d b intr).2 = s ∨
    (s.interruptibleSleep d b intr).2 =
      { s with skip_passenger_transfer := true, close_door_pressed := true } ∨
    (s.interruptibleSleep d b intr).2 = { s with close_door_pressed := false } := by
  unfold interruptibleSleep
  rcases h : s.observedSignal intr with _ | e
  · simp
  · by_cases he : 0 ≤ e ∧ e < d
    · cases b <;> simp [he]
    · simp [he]

@[simp] theorem interruptibleSleep_current_floor (s : Elevator) (d : ℚ) (b : Bool)
    (intr : Option ℚ) :
    (s.interruptibleSleep d b intr).2.current_floor = s.current_floor := by
  rcases interruptibleSleep_snd s d b intr with h | h | h <;> rw [h]

@[simp] theorem open_doors_current_floor (s : Elevator) (f : ℤ) (o : Option ℚ) :
    (s.open_doors f o).2.current_floor = s.current_floor := by
  unfold open_doors
  cases h : s.real_time <;> simp [setState, h]

@[simp] theorem transfer_passengers_current_floor (s : Elevator) (f : ℤ) (o : Option ℚ) :
    (s.transfer_passengers f o).2.current_floor = s.current_floor := by
  unfold transfer_passengers
  cases hs : s.skip_passenger_transfer
  · cases h : s.real_time <;> simp [setState, hs, h]
  · simp [hs]

@[simp] theorem close_doors_current_floor (s : Elevator) (f : ℤ) :
    (s.close_doors f).2.current_floor = s.current_floor := by
  simp [close_doors, setState]

theorem validate_floor_ok_iff {f : ℤ} :
    validate_floor f = .ok () ↔ (MIN_FLOOR ≤ f ∧ f ≤ MAX_FLOOR) := by
  constructor
  · intro h
    by_contra hc
    have hv : f < MIN_FLOOR ∨ f > MAX_FLOOR := by
      simp only [MIN_FLOOR, MAX_FLOOR] at *
      omega
    simp [validate_floor, hv] at h
  · exact validate_floor_ok

/-- Inversion for `visit_floor`: success implies the target floor passed range
validation and the car ends there. -/
theorem visit_floor_ok_inv (s : Elevator) (f : ℤ) (o₁ o₂ : Option ℚ)
    (r : ℚ × ℚ × ℚ × ℚ) (s₂ : Elevator) (h : s.visit_floor f o₁ o₂ = .ok (r, s₂)) :
    s₂.current_floor = f ∧ (MIN_FLOOR ≤ f ∧ f ≤ MAX_FLOOR) := by
  rcases htr : s.travel_to_floor f with ⟨tt, sᵣ⟩
  rcases hval : validate_floor f with e | u
  · simp [visit_floor, htr, set_current_floor, hval] at h
  · cases u
    have hvv := validate_floor_ok_iff.mp hval
    refine ⟨?_, hvv⟩
    rw [visit_floor] at h
    simp only [htr, set_current_floor, hval, ok_bind, bind_pure_ok, pure_eq_ok,
      Except.ok.injEq, Prod.mk.injEq] at h
    rw [← h.2]
    simp

/-- Inversion for one loop iteration, in any mode: if the iteration succeeds,
the car ends at the requested floor, and that floor was either already the
current one or passed range validation. -/
theorem runStep_ok_inv (s : Elevator) (f : ℤ) (o : Option ℚ × Option ℚ)
    (s₂ : Elevator) (h : s.runStep f o = .ok s₂) :
    s₂.current_floor = f ∧ (f = s.current_floor ∨ (MIN_FLOOR ≤ f ∧ f ≤ MAX_FLOOR)) := by
  by_cases hf : f = s.current_floor
  · rw [runStep, if_pos hf] at h
    rcases hod : s.open_doors f o.1 with ⟨t₁, s₁⟩
    rcases htp : s₁.transfer_passengers f o.2 with ⟨t₂, sₜ⟩
    rcases hcd : sₜ.close_doors f with ⟨t₃, s₃⟩
    rw [hod] at h
    simp only [htp, hcd, Except.ok.injEq] at h
    have h₁ : s₁.current_floor = s.current_floor := by
      have := open_doors_current_floor s f o.1; rw [hod] at this; exact this
    have h₂ : sₜ.current_floor = s₁.current_floor := by
      have := transfer_passengers_current_floor s₁ f o.2; rw [htp] at this; exact this
    have h₃ : s₃.current_floor = sₜ.current_floor := by
      have := close_doors_current_floor sₜ f; rw [hcd] at this; exact this
    refine ⟨?_, .inl hf⟩
    rw [← h]
    simp [h₃, h₂, h₁, hf]
  · rw [runStep, if_neg hf] at h
    rcases hvf : s.visit_floor f o.1 o.2 with e | ⟨r, sᵥ⟩
    · simp [hvf] at h
    · have hi := visit_floor_ok_inv s f o.1 o.2 r sᵥ hvf
      simp only [hvf, ok_bind, pure_eq_ok, Except.ok.injEq] at h
      refine ⟨?_, .inr hi.2⟩
      rw [← h]
      simp [hi.1]

/-- If the run loop succeeds from a car whose floor is in range, every floor of
the list is in range, and the car ends in range. -/
theorem runLoop_ok_inv (floors : List ℤ) (s : Elevator) (env : ℕ → Option ℚ × Option ℚ)
    (s' : Elevator) (h : s.runLoop floors env = .ok s')
    (hcur : MIN_FLOOR ≤ s.current_floor ∧ s.current_floor ≤ MAX_FLOOR) :
    (∀ f ∈ floors, MIN_FLOOR ≤ f ∧ f ≤ MAX_FLOOR) ∧
      (MIN_FLOOR ≤ s'.current_floor ∧ s'.current_floor ≤ MAX_FLOOR) := by
  induction floors generalizing s env with
  | nil =>
    simp only [runLoop, Except.ok.injEq] at h
    exact ⟨by simp, h ▸ hcur⟩
  | cons f rest ih =>
    rw [runLoop] at h
    rcases hst : s.runStep f (env 0) with e | s₂
    · simp [hst] at h
    · simp only [hst, ok_bind] at h
      have hi := runStep_ok_inv s f (env 0) s₂ hst
      have hfv : MIN_FLOOR ≤ f ∧ f ≤ MAX_FLOOR := by
        rcases hi.2 with hfc | hfr
        · exact hfc ▸ hcur
        · exact hfr
      have hrest := ih s₂ (fun n => env (n + 1)) h (hi.1 ▸ hfv)
      refine ⟨?_, hrest.2⟩
      intro g hg
      rcases List.mem_cons.mp hg with rfl | hg'
      · exact hfv
      · exact hrest.1 g hg'
end Elevator

namespace ElevatorSimulator

theorem legacy_runStep_eq_spec (s : ElevatorSimulator) (f : ℤ) :
    s.runStep f = s.runStepSpec f := by
  by_cases h : f = s.current_floor <;>
    simp [runStep, runStepSpec, h, visit_floor, travel_to_floor]

@[simp] theorem legacy_runStepSpec_current_floor (s : ElevatorSimulator) (f : ℤ) :
    (s.runStepSpec f).current_floor = f := by
  by_cases h : f = s.current_floor <;> simp [runStepSpec, h]

theorem legacy_runStepSpec_travel_time (s : ElevatorSimulator) (f : ℤ) :
    (s.runStepSpec f).travel_time =
      s.travel_time + (|f - s.current_floor| : ℤ) * FLOOR_TRAVEL_TIME := by
  by_cases h : f = s.current_floor <;> simp [runStepSpec, h]

theorem legacy_runStepSpec_door_operation_time (s : ElevatorSimulator) (f : ℤ) :
    (s.runStepSpec f).door_operation_time =
      s.door_operation_time + (DOOR_OPEN_TIME + DOOR_CLOSE_TIME) := by
  by_cases h : f = s.current_floor <;> simp [runStepSpec, h]

theorem legacy_runStepSpec_passenger_transfer_time (s : ElevatorSimulator) (f : ℤ) :
    (s.runStepSpec f).passenger_transfer_time =
      s.passenger_transfer_time + PASSENGER_TRANSFER_TIME := by
  by_cases h : f = s.current_floor <;> simp [runStepSpec, h]

theorem legacy_runStepSpec_total_time (s : ElevatorSimulator) (f : ℤ) :
    (s.runStepSpec f).total_time =
      s.total_time + (DOOR_OPEN_TIME + DOOR_CLOSE_TIME + PASSENGER_TRANSFER_TIME) +
        (|f - s.current_floor| : ℤ) * FLOOR_TRAVEL_TIME := by
  by_cases h : f = s.current_floor
  · simp [runStepSpec, h]
  · simp only [runStepSpec, if_neg h]
    ring

theorem legacy_runStepSpec_visited_floors (s : ElevatorSimulator) (f : ℤ) :
    (s.runStepSpec f).visited_floors =
      s.visited_floors ++ (if f = s.current_floor then [] else [f]) := by
  by_cases h : f = s.current_floor <;> simp [runStepSpec, h]

theorem runLoop_travel_time (s : ElevatorSimulator) (floors : List ℤ) :
    (s.runLoop floors).travel_time =
      s.travel_time + (totalDist s.current_floor floors : ℤ) * FLOOR_TRAVEL_TIME := by
  induction floors generalizing s with
  | nil => simp [runLoop, totalDist]
  | cons f rest ih =>
    rw [runLoop, legacy_runStep_eq_spec, ih, legacy_runStepSpec_travel_time]
    simp only [legacy_runStepSpec_current_floor, totalDist]
    push_cast
    ring

theorem runLoop_door_operation_time (s : ElevatorSimulator) (floors : List ℤ) :
    (s.runLoop floors).door_operation_time =
      s.door_operation_time + (DOOR_OPEN_TIME + DOOR_CLOSE_TIME) * floors.length := by
  induction floors generalizing s with
  | nil => simp [runLoop]
  | cons f rest ih =>
    rw [runLoop, legacy_runStep_eq_spec, ih, legacy_runStepSpec_door_operation_time]
    simp only [List.length_cons]
    push_cast
    ring

theorem runLoop_passenger_transfer_time (s : ElevatorSimulator) (floors : List ℤ) :
    (s.runLoop floors).passenger_transfer_time =
      s.passenger_transfer_time + PASSENGER_TRANSFER_TIME * floors.length := by
  induction floors generalizing s with
  | nil => simp [runLoop]
  | cons f rest ih =>
    rw [runLoop, legacy_runStep_eq_spec, ih, legacy_runStepSpec_passenger_transfer_time]
    simp only [List.length_cons]
    push_cast
    ring

theorem runLoop_total_time (s : ElevatorSimulator) (floors : List ℤ) :
    (s.runLoop floors).total_time =
      s.total_time +
        (DOOR_OPEN_TIME + DOOR_CLOSE_TIME + PASSENGER_TRANSFER_TIME) * floors.length +
        (totalDist s.current_floor floors : ℤ) * FLOOR_TRAVEL_TIME := by
  induction floors generalizing s with
  | nil => simp [runLoop, totalDist]
  | cons f rest ih =>
    rw [runLoop, legacy_runStep_eq_spec, ih, legacy_runStepSpec_total_time]
    simp only [legacy_runStepSpec_current_floor, List.length_cons, totalDist]
    push_cast
    ring

theorem runLoop_visited_floors (s : ElevatorSimulator) (floors : List ℤ) :
    (s.runLoop floors).visited_floors =
      s.visited_floors ++ visitedAdds s.current_floor floors := by
  induction floors generalizing s with
  | nil => simp [runLoop, visitedAdds]
  | cons f rest ih =>
    rw [runLoop, legacy_runStep_eq_spec, ih, legacy_runStepSpec_visited_floors]
    by_cases h : f = s.current_floor <;>
      simp [visitedAdds, h, legacy_runStepSpec_current_floor]

end ElevatorSimulator

namespace Elevator

/-- Inversion for `Elevator.init`: a successful construction yields exactly the
freshly initialised state, and the start floor is in range. -/
theorem init_ok_inv (ftt : ℚ) (start : ℤ) (floors : List ℤ) (rt : Bool)
    (s₀ : Elevator) (h : Elevator.init ftt start floors rt = .ok s₀) :
    s₀ = { floor_travel_time := ftt, current_floor := start, floors_to_visit := floors,
           real_time := rt, total_time := 0, travel_time := 0, door_operation_time := 0,
           passenger_transfer_time := 0, visited_floors := [start],
           close_door_pressed := false, current_state := .idle,
           skip_passenger_transfer := false, state_trace := [] } ∧
    (MIN_FLOOR ≤ start ∧ start ≤ MAX_FLOOR) := by
  rcases hval : validate_floor start with e | u
  · simp [init, hval] at h
  · cases u
    simp only [init, hval, ok_bind, pure_eq_ok, Except.ok.injEq] at h
    exact ⟨h.symm, validate_floor_ok_iff.mp hval⟩

/-- `Elevator.init` succeeds on an in-range start floor. -/
theorem init_ok (ftt : ℚ) (start : ℤ) (floors : List ℤ) (rt : Bool)
    (h : MIN_FLOOR ≤ start ∧ start ≤ MAX_FLOOR) :
    Elevator.init ftt start floors rt =
      .ok { floor_travel_time := ftt, current_floor := start, floors_to_visit := floors,
            real_time := rt, total_time := 0, travel_time := 0, door_operation_time := 0,
            passenger_transfer_time := 0, visited_floors := [start],
            close_door_pressed := false, current_state := .idle,
            skip_passenger_transfer := false, state_trace := [] } := by
  simp [init, validate_floor_ok h]

end Elevator

/-- **C1.** For every valid floor plan run in non-real-time mode with no
interruption (the oracle stream is irrelevant since no interruptible sleep
runs), after the run loop completes, `total_time` equals
`travel_time + door_operation_time + passenger_transfer_time`, and
`door_operation_time` equals `(DOOR_OPEN_TIME + DOOR_CLOSE_TIME) *
number_of_stops` where `number_of_stops` is the length of the requested floor
list; and both equalities also hold in the state reached after every iteration
of the loop (i.e. after processing any prefix of the floor list). -/
theorem run_time_accounting
    (start : ℤ) (floors : List ℤ) (env : ℕ → Option ℚ × Option ℚ)
    (s₀ : Elevator) (r : ℚ × List ℤ) (s' : Elevator)
    (hinit : Elevator.init FLOOR_TRAVEL_TIME start floors false = .ok s₀)
    (hrun : s₀.run env = .ok (r, s')) :
    (s'.total_time = s'.travel_time + s'.door_operation_time + s'.passenger_transfer_time ∧
     s'.door_operation_time = (DOOR_OPEN_TIME + DOOR_CLOSE_TIME) * floors.length) ∧
    (∀ p q : List ℤ, floors = p ++ q →
      ∃ sp : Elevator, s₀.runLoop p env = .ok sp ∧
        sp.total_time = sp.travel_time + sp.door_operation_time + sp.passenger_transfer_time ∧
        sp.door_operation_time = (DOOR_OPEN_TIME + DOOR_CLOSE_TIME) * p.length) := by
  obtain ⟨hs₀, hstart⟩ := Elevator.init_ok_inv _ _ _ _ _ hinit
  have hrt : s₀.real_time = false := by rw [hs₀]
  have hskip : s₀.skip_passenger_transfer = false := by rw [hs₀]
  have hfl : s₀.floors_to_visit = floors := by rw [hs₀]
  have hcur : MIN_FLOOR ≤ s₀.current_floor ∧ s₀.current_floor ≤ MAX_FLOOR := by
    rw [hs₀]; exact hstart
  -- extract the loop result from the `run` wrapper
  rw [Elevator.run, hfl] at hrun
  rcases hloop : s₀.runLoop floors env with e | sN
  · simp [hloop] at hrun
  · simp only [hloop, Elevator.ok_bind, Elevator.pure_eq_ok, Except.ok.injEq,
      Prod.mk.injEq] at hrun
    have hvalid := (Elevator.runLoop_ok_inv floors s₀ env sN hloop hcur).1
    -- bookkeeping equations for an arbitrary prefix of the floor list
    have key : ∀ p : List ℤ, (∀ f ∈ p, MIN_FLOOR ≤ f ∧ f ≤ MAX_FLOOR) →
        s₀.runLoop p env = .ok (s₀.runLoopSpec p) ∧
        (s₀.runLoopSpec p).total_time =
          (s₀.runLoopSpec p).travel_time + (s₀.runLoopSpec p).door_operation_time +
            (s₀.runLoopSpec p).passenger_transfer_time ∧
        (s₀.runLoopSpec p).door_operation_time =
          (DOOR_OPEN_TIME + DOOR_CLOSE_TIME) * p.length := by
      intro p hp
      refine ⟨Elevator.runLoop_eq_spec p s₀ env hrt hskip hp, ?_, ?_⟩
      · rw [Elevator.runLoopSpec_total_time, Elevator.runLoopSpec_travel_time,
          Elevator.runLoopSpec_door_operation_time,
          Elevator.runLoopSpec_passenger_transfer_time]
        have h0 : s₀.total_time = 0 := by rw [hs₀]
        have h1 : s₀.travel_time = 0 := by rw [hs₀]
        have h2 : s₀.door_operation_time = 0 := by rw [hs₀]
        have h3 : s₀.passenger_transfer_time = 0 := by rw [hs₀]
        rw [h0, h1, h2, h3]
        ring
      · rw [Elevator.runLoopSpec_door_operation_time]
        have h2 : s₀.door_operation_time = 0 := by rw [hs₀]
        rw [h2]
        ring
    have hfull := key floors hvalid
    have hsN : sN = s₀.runLoopSpec floors := by
      have h' := hfull.1.symm.trans hloop
      exact (Except.ok.inj h').symm
    constructor
    · rw [← hrun.2, hsN]
      exact hfull.2
    · intro p q hpq
      have hp : ∀ f ∈ p, MIN_FLOOR ≤ f ∧ f ≤ MAX_FLOOR := by
        intro f hf
        exact hvalid f (by rw [hpq]; exact List.mem_append_left q hf)
      obtain ⟨hpl, hpt, hpd⟩ := key p hp
      exact ⟨s₀.runLoopSpec p, hpl, hpt, hpd⟩

theorem std_scenario_init :
    Elevator.init FLOOR_TRAVEL_TIME 12 [2, 9, 1, 32] false = .ok stdStart :=
  Elevator.init_ok FLOOR_TRAVEL_TIME 12 [2, 9, 1, 32] false (by decide)

theorem std_scenario_visited :
    (stdStart.runLoopSpec [2, 9, 1, 32]).visited_floors = [12, 2, 9, 1, 32] := by
  rw [Elevator.runLoopSpec_visited_floors]
  decide

theorem std_scenario_travel :
    (stdStart.runLoopSpec [2, 9, 1, 32]).travel_time = 560 := by
  rw [Elevator.runLoopSpec_travel_time]
  have hd : totalDist (12 : ℤ) [2, 9, 1, 32] = 56 := by decide
  show (0 : ℚ) + (totalDist (12 : ℤ) [2, 9, 1, 32] : ℤ) * FLOOR_TRAVEL_TIME = 560
  rw [hd]
  norm_num [FLOOR_TRAVEL_TIME]

theorem std_scenario_door :
    (stdStart.runLoopSpec [2, 9, 1, 32]).door_operation_time = 16 := by
  rw [Elevator.runLoopSpec_door_operation_time]
  norm_num [stdStart, DOOR_OPEN_TIME, DOOR_CLOSE_TIME]

theorem std_scenario_transfer :
    (stdStart.runLoopSpec [2, 9, 1, 32]).passenger_transfer_time = 16 := by
  rw [Elevator.runLoopSpec_passenger_transfer_time]
  norm_num [stdStart, PASSENGER_TRANSFER_TIME]

theorem std_scenario_total :
    (stdStart.runLoopSpec [2, 9, 1, 32]).total_time = 592 := by
  rw [Elevator.runLoopSpec_total_time]
  have hd : totalDist (12 : ℤ) [2, 9, 1, 32] = 56 := by decide
  show (0 : ℚ) + (DOOR_OPEN_TIME + DOOR_CLOSE_TIME + PASSENGER_TRANSFER_TIME) * 4 +
    (totalDist (12 : ℤ) [2, 9, 1, 32] : ℤ) * FLOOR_TRAVEL_TIME = 592
  rw [hd]
  norm_num [DOOR_OPEN_TIME, DOOR_CLOSE_TIME, PASSENGER_TRANSFER_TIME, FLOOR_TRAVEL_TIME]

theorem std_scenario_run_eq :
    stdStart.run noInterrupts =
      .ok ((592, [12, 2, 9, 1, 32]), stdStart.runLoopSpec [2, 9, 1, 32]) := by
  have hvalid : ∀ f ∈ ([2, 9, 1, 32] : List ℤ), MIN_FLOOR ≤ f ∧ f ≤ MAX_FLOOR := by
    decide
  have hloop := Elevator.runLoop_eq_spec [2, 9, 1, 32] stdStart noInterrupts rfl rfl hvalid
  rw [Elevator.run]
  show (do
      let s' ← stdStart.runLoop [2, 9, 1, 32] noInterrupts
      pure ((s'.total_time, s'.visited_floors), s')) =
    .ok ((592, [12, 2, 9, 1, 32]), stdStart.runLoopSpec [2, 9, 1, 32])
  rw [hloop]
  simp only [Elevator.ok_bind, Elevator.pure_eq_ok, Except.ok.injEq, Prod.mk.injEq]
  exact ⟨⟨std_scenario_total, std_scenario_visited⟩, trivial⟩

/-- **C2.** Running the standard profile in non-real-time mode on start floor
12 with requested floors `[2, 9, 1, 32]` yields
`visited_floors = [12, 2, 9, 1, 32]`, `travel_time = 560`,
`door_operation_time = 16`, `passenger_transfer_time = 16`, and
`total_time = 592`; `run` returns `(592, [12, 2, 9, 1, 32])`. -/
theorem standard_scenario_run :
    ∃ s₀ s' : Elevator,
      Elevator.init FLOOR_TRAVEL_TIME 12 [2, 9, 1, 32] false = .ok s₀ ∧
      s₀.run noInterrupts = .ok ((592, [12, 2, 9, 1, 32]), s') ∧
      s'.visited_floors = [12, 2, 9, 1, 32] ∧
      s'.travel_time = 560 ∧
      s'.door_operation_time = 16 ∧
      s'.passenger_transfer_time = 16 ∧
      s'.total_time = 592 :=
  ⟨stdStart, stdStart.runLoopSpec [2, 9, 1, 32], std_scenario_init, std_scenario_run_eq,
    std_scenario_visited, std_scenario_travel, std_scenario_door, std_scenario_transfer,
    std_scenario_total⟩

/-- Witness for `run_time_accounting` at the concrete scenario
`start=12 floor=2,9,1,32`. -/
theorem run_time_accounting_witness :
    ∃ s₀ : Elevator, ∃ r : ℚ × List ℤ, ∃ s' : Elevator,
      Elevator.init FLOOR_TRAVEL_TIME 12 [2, 9, 1, 32] false = .ok s₀ ∧
      s₀.run noInterrupts = .ok (r, s') ∧
      (s'.total_time = s'.travel_time + s'.door_operation_time + s'.passenger_transfer_time ∧
       s'.door_operation_time =
         (DOOR_OPEN_TIME + DOOR_CLOSE_TIME) * ([2, 9, 1, 32] : List ℤ).length) ∧
      (∀ p q : List ℤ, ([2, 9, 1, 32] : List ℤ) = p ++ q →
        ∃ sp : Elevator, s₀.runLoop p noInterrupts = .ok sp ∧
          sp.total_time = sp.travel_time + sp.door_operation_time +
            sp.passenger_transfer_time ∧
          sp.door_operation_time = (DOOR_OPEN_TIME + DOOR_CLOSE_TIME) * p.length) :=
  ⟨stdStart, (592, [12, 2, 9, 1, 32]), stdStart.runLoopSpec [2, 9, 1, 32],
    std_scenario_init, std_scenario_run_eq,
    (run_time_accounting 12 [2, 9, 1, 32] noInterrupts stdStart
      (592, [12, 2, 9, 1, 32]) (stdStart.runLoopSpec [2, 9, 1, 32])
      std_scenario_init std_scenario_run_eq).1,
    (run_time_accounting 12 [2, 9, 1, 32] noInterrupts stdStart
      (592, [12, 2, 9, 1, 32]) (stdStart.runLoopSpec [2, 9, 1, 32])
      std_scenario_init std_scenario_run_eq).2⟩

/-- **C3.** For every pair of floors and every per-floor travel time `t`, the
travel duration computed when traveling equals `abs(to - from) * t`, and is 0
when the floors are equal; `Timer.calculate_travel_time` and
`Elevator.travel_to_floor` are total Lean functions (pure, no error
conditions). -/
theorem travel_duration_formula (from_floor to_floor : ℤ) (t : ℚ)
    (s : Elevator) (target : ℤ) :
    Timer.calculate_travel_time (|to_floor - from_floor|) t = (|to_floor - from_floor| : ℤ) * t ∧
    Timer.calculate_travel_time (|from_floor - from_floor|) t = 0 ∧
    (s.travel_to_floor target).1 = (|target - s.current_floor| : ℤ) * s.floor_travel_time ∧
    (s.travel_to_floor s.current_floor).1 = 0 := by
  refine ⟨rfl, by simp [Timer.calculate_travel_time], ?_, ?_⟩
  · by_cases h : |target - s.current_floor| > 0 <;>
      simp [Elevator.travel_to_floor, Timer.calculate_travel_time, h]
  · by_cases h : |s.current_floor - s.current_floor| > 0 <;>
      simp [Elevator.travel_to_floor, Timer.calculate_travel_time, h]

/-- **C4.** A requested floor equal to the car's current floor is handled by
exactly door-open, transfer, door-close (trace `[doors_open, transferring,
doors_closing, idle]`, no `traveling`), appends nothing to `visited_floors`,
leaves `travel_time` and `current_floor` unchanged, and adds only door and
transfer time to the totals. -/
theorem already_at_floor_step (s : Elevator) (f : ℤ) (o : Option ℚ × Option ℚ)
    (hrt : s.real_time = false) (hskip : s.skip_passenger_transfer = false)
    (hf : f = s.current_floor) :
    ∃ s₂ : Elevator, s.runStep f o = .ok s₂ ∧
      s₂.visited_floors = s.visited_floors ∧
      s₂.travel_time = s.travel_time ∧
      s₂.current_floor = s.current_floor ∧
      s₂.door_operation_time = s.door_operation_time + (DOOR_OPEN_TIME + DOOR_CLOSE_TIME) ∧
      s₂.passenger_transfer_time = s.passenger_transfer_time + PASSENGER_TRANSFER_TIME ∧
      s₂.total_time = s.total_time +
        (DOOR_OPEN_TIME + DOOR_CLOSE_TIME + PASSENGER_TRANSFER_TIME) ∧
      s₂.state_trace = s.state_trace ++
        [.doors_open, .transferring, .doors_closing, .idle] := by
  refine ⟨s.runStepSpec f, Elevator.runStep_eq_spec s f o hrt hskip (.inl hf), ?_, ?_, ?_,
    ?_, ?_, ?_, ?_⟩ <;>
    simp [Elevator.runStepSpec, hf]

/-- Witness for `already_at_floor_step` at a concrete state. -/
theorem already_at_floor_step_witness :
    stdStart.real_time = false ∧ stdStart.skip_passenger_transfer = false ∧
    (12 : ℤ) = stdStart.current_floor ∧
    ∃ s₂ : Elevator, stdStart.runStep 12 (none, none) = .ok s₂ ∧
      s₂.visited_floors = stdStart.visited_floors ∧
      s₂.travel_time = stdStart.travel_time ∧
      s₂.current_floor = stdStart.current_floor ∧
      s₂.door_operation_time =
        stdStart.door_operation_time + (DOOR_OPEN_TIME + DOOR_CLOSE_TIME) ∧
      s₂.passenger_transfer_time =
        stdStart.passenger_transfer_time + PASSENGER_TRANSFER_TIME ∧
      s₂.total_time = stdStart.total_time +
        (DOOR_OPEN_TIME + DOOR_CLOSE_TIME + PASSENGER_TRANSFER_TIME) ∧
      s₂.state_trace = stdStart.state_trace ++
        [.doors_open, .transferring, .doors_closing, .idle] :=
  ⟨rfl, rfl, rfl, already_at_floor_step stdStart 12 (none, none) rfl rfl rfl⟩

/-- **C6.** `close_doors` unconditionally clears the cancel signal and the skip
flag, passes through `doors_closing` and ends `idle` (trace gains
`[doors_closing, idle]`), and always returns the full fixed
`DOOR_CLOSE_TIME = 2` seconds: door closing is never shortened. -/
theorem close_doors_full_duration (s : Elevator) (f : ℤ) :
    (s.close_doors f).1 = DOOR_CLOSE_TIME ∧ DOOR_CLOSE_TIME = 2 ∧
    (s.close_doors f).2.close_door_pressed = false ∧
    (s.close_doors f).2.skip_passenger_transfer = false ∧
    (s.close_doors f).2.current_state = .idle ∧
    (s.close_doors f).2.state_trace = s.state_trace ++ [.doors_closing, .idle] := by
  refine ⟨rfl, rfl, ?_, ?_, ?_, ?_⟩ <;> simp [Elevator.close_doors, Elevator.setState]

namespace Elevator

/-- An interruptible sleep whose signal is observed at elapsed `e < duration`
returns `e`; during door opening it raises the skip flag and keeps the signal
set, otherwise it consumes the signal. -/
theorem interruptibleSleep_interrupted (s : Elevator) (d : ℚ) (b : Bool)
    (intr : Option ℚ) (e : ℚ) (hobs : s.observedSignal intr = some e)
    (he₀ : 0 ≤ e) (he : e < d) :
    s.interruptibleSleep d b intr =
      (e, if b then { s with skip_passenger_transfer := true, close_door_pressed := true }
          else { s with close_door_pressed := false }) := by
  rw [interruptibleSleep, hobs]
  cases b <;> simp [he₀, he]

/-- `open_doors` in real-time mode, interrupted at elapsed `e`. -/
theorem open_doors_interrupted (s : Elevator) (f : ℤ) (intr : Option ℚ) (e : ℚ)
    (hrt : s.real_time = true) (hobs : s.observedSignal intr = some e)
    (he₀ : 0 ≤ e) (he : e < DOOR_OPEN_TIME) :
    s.open_doors f intr =
      (e, { s with
            current_state := .doors_open
            state_trace := s.state_trace ++ [.doors_open]
            skip_passenger_transfer := true
            close_door_pressed := true }) := by
  have h₁ : (s.setState .doors_open).observedSignal intr = some e := hobs
  have h₂ : (s.setState .doors_open).real_time = true := hrt
  simp only [open_doors, h₂, if_true]
  rw [interruptibleSleep_interrupted _ _ _ _ _ h₁ he₀ he]
  simp [setState]

/-- `transfer_passengers` with the skip flag set: clears the flag, contributes
0, touches nothing else. -/
theorem transfer_passengers_skip (s : Elevator) (f : ℤ) (intr : Option ℚ)
    (hskip : s.skip_passenger_transfer = true) :
    s.transfer_passengers f intr = (0, { s with skip_passenger_transfer := false }) := by
  simp [transfer_passengers, hskip]

end Elevator

/-- **C5.** When the cancel signal interrupts the door-opening wait (observed
at elapsed `e < DOOR_OPEN_TIME`), the skip flag is set and `e` is returned; the
subsequent `transfer_passengers` clears the flag and contributes exactly 0 with
no state change (the state stays `doors_open`, the trace gains no
`transferring` entry), and no skip state lingers into the next floor's cycle:
after `close_doors` both the skip flag and the cancel signal are cleared. -/
theorem interrupted_door_open_skips_transfer (s : Elevator) (f : ℤ)
    (intr intr₂ : Option ℚ) (e : ℚ)
    (hrt : s.real_time = true) (hobs : s.observedSignal intr = some e)
    (he₀ : 0 ≤ e) (he : e < DOOR_OPEN_TIME) :
    (s.open_doors f intr).1 = e ∧
    (s.open_doors f intr).2.skip_passenger_transfer = true ∧
    ((s.open_doors f intr).2.transfer_passengers f intr₂).1 = 0 ∧
    ((s.open_doors f intr).2.transfer_passengers f intr₂).2.skip_passenger_transfer
      = false ∧
    ((s.open_doors f intr).2.transfer_passengers f intr₂).2.current_state
      = .doors_open ∧
    ((s.open_doors f intr).2.transfer_passengers f intr₂).2.state_trace
      = (s.open_doors f intr).2.state_trace ∧
    (((s.open_doors f intr).2.transfer_passengers f intr₂).2.close_doors f).2.skip_passenger_transfer = false ∧
    (((s.open_doors f intr).2.transfer_passengers f intr₂).2.close_doors f).2.close_door_pressed = false := by
  have hod := Elevator.open_doors_interrupted s f intr e hrt hobs he₀ he
  rw [hod]
  have htp := Elevator.transfer_passengers_skip
    ({ s with
       current_state := .doors_open
       state_trace := s.state_trace ++ [.doors_open]
       skip_passenger_transfer := true
       close_door_pressed := true } : Elevator)
    f intr₂ rfl
  rw [htp]
  refine ⟨rfl, rfl, rfl, rfl, rfl, rfl, ?_, ?_⟩ <;>
    simp [Elevator.close_doors, Elevator.setState]

/-- Witness for `interrupted_door_open_skips_transfer`: a real-time car whose
door-open wait is interrupted after 1 second. -/
theorem interrupted_door_open_skips_transfer_witness :
    (realTimeStart.real_time = true ∧
     realTimeStart.observedSignal (some 1) = some 1 ∧
     (0 : ℚ) ≤ 1 ∧ (1 : ℚ) < DOOR_OPEN_TIME) ∧
    ((realTimeStart.open_doors 5 (some 1)).1 = 1 ∧
     (realTimeStart.open_doors 5 (some 1)).2.skip_passenger_transfer = true ∧
     ((realTimeStart.open_doors 5 (some 1)).2.transfer_passengers 5 none).1 = 0 ∧
     ((realTimeStart.open_doors 5 (some 1)).2.transfer_passengers 5 none).2.skip_passenger_transfer = false ∧
     ((realTimeStart.open_doors 5 (some 1)).2.transfer_passengers 5 none).2.current_state = .doors_open ∧
     ((realTimeStart.open_doors 5 (some 1)).2.transfer_passengers 5 none).2.state_trace
       = (realTimeStart.open_doors 5 (some 1)).2.state_trace ∧
     (((realTimeStart.open_doors 5 (some 1)).2.transfer_passengers 5 none).2.close_doors 5).2.skip_passenger_transfer = false ∧
     (((realTimeStart.open_doors 5 (some 1)).2.transfer_passengers 5 none).2.close_doors 5).2.close_door_pressed = false) :=
  ⟨⟨rfl, rfl, by norm_num, by norm_num [DOOR_OPEN_TIME]⟩,
    interrupted_door_open_skips_transfer realTimeStart 5 (some 1) none 1
      rfl rfl (by norm_num) (by norm_num [DOOR_OPEN_TIME])⟩

namespace Elevator

/-- `run` in terms of the result of its loop. -/
theorem run_eq (s s' : Elevator) (env : ℕ → Option ℚ × Option ℚ)
    (h : s.runLoop s.floors_to_visit env = .ok s') :
    s.run env = .ok ((s'.total_time, s'.visited_floors), s') := by
  rw [run, h]
  rfl

end Elevator

/-- **C9.** On any identical valid floor plan run in non-real-time mode, the
standard profile's accumulated `travel_time` is exactly twice the fast
profile's (10 s/floor vs 5 s/floor), and all other outputs — `visited_floors`,
`door_operation_time`, `passenger_transfer_time`, and the visited list returned
by `run` — are identical between the two profiles. -/
theorem fast_profile_halves_travel (start : ℤ) (floors : List ℤ)
    (env : ℕ → Option ℚ × Option ℚ)
    (hstart : MIN_FLOOR ≤ start ∧ start ≤ MAX_FLOOR)
    (hfl : ∀ f ∈ floors, MIN_FLOOR ≤ f ∧ f ≤ MAX_FLOOR) :
    ∃ sS sF s'S s'F : Elevator, ∃ rS rF : ℚ × List ℤ,
      Elevator.init FLOOR_TRAVEL_TIME start floors false = .ok sS ∧
      FastElevator.init start floors false = .ok sF ∧
      sS.run env = .ok (rS, s'S) ∧
      sF.run env = .ok (rF, s'F) ∧
      s'S.travel_time = 2 * s'F.travel_time ∧
      s'F.visited_floors = s'S.visited_floors ∧
      s'F.door_operation_time = s'S.door_operation_time ∧
      s'F.passenger_transfer_time = s'S.passenger_transfer_time ∧
      rF.2 = rS.2 := by
  have hiS := Elevator.init_ok FLOOR_TRAVEL_TIME start floors false hstart
  have hiF := Elevator.init_ok FAST_FLOOR_TRAVEL_TIME start floors false hstart
  set sS : Elevator :=
    { floor_travel_time := FLOOR_TRAVEL_TIME, current_floor := start,
      floors_to_visit := floors, real_time := false, total_time := 0,
      travel_time := 0, door_operation_time := 0, passenger_transfer_time := 0,
      visited_floors := [start], close_door_pressed := false, current_state := .idle,
      skip_passenger_transfer := false, state_trace := [] } with hsS
  set sF : Elevator :=
    { floor_travel_time := FAST_FLOOR_TRAVEL_TIME, current_floor := start,
      floors_to_visit := floors, real_time := false, total_time := 0,
      travel_time := 0, door_operation_time := 0, passenger_transfer_time := 0,
      visited_floors := [start], close_door_pressed := false, current_state := .idle,
      skip_passenger_transfer := false, state_trace := [] } with hsF
  have hloopS := Elevator.runLoop_eq_spec floors sS env rfl rfl hfl
  have hloopF := Elevator.runLoop_eq_spec floors sF env rfl rfl hfl
  have hrunS := Elevator.run_eq sS (sS.runLoopSpec floors) env hloopS
  have hrunF := Elevator.run_eq sF (sF.runLoopSpec floors) env hloopF
  refine ⟨sS, sF, sS.runLoopSpec floors, sF.runLoopSpec floors, _, _,
    hiS, hiF, hrunS, hrunF, ?_, ?_, ?_, ?_, ?_⟩
  · rw [Elevator.runLoopSpec_travel_time, Elevator.runLoopSpec_travel_time]
    show (0 : ℚ) + (totalDist start floors : ℤ) * FLOOR_TRAVEL_TIME =
      2 * ((0 : ℚ) + (totalDist start floors : ℤ) * FAST_FLOOR_TRAVEL_TIME)
    rw [FLOOR_TRAVEL_TIME, FAST_FLOOR_TRAVEL_TIME]
    ring
  · rw [Elevator.runLoopSpec_visited_floors, Elevator.runLoopSpec_visited_floors]
  · rw [Elevator.runLoopSpec_door_operation_time,
      Elevator.runLoopSpec_door_operation_time]
  · rw [Elevator.runLoopSpec_passenger_transfer_time,
      Elevator.runLoopSpec_passenger_transfer_time]
  · show (sF.runLoopSpec floors).visited_floors = (sS.runLoopSpec floors).visited_floors
    rw [Elevator.runLoopSpec_visited_floors, Elevator.runLoopSpec_visited_floors]

/-- Witness for `fast_profile_halves_travel` on the standard scenario plan. -/
theorem fast_profile_halves_travel_witness :
    (MIN_FLOOR ≤ (12 : ℤ) ∧ (12 : ℤ) ≤ MAX_FLOOR) ∧
    (∀ f ∈ ([2, 9, 1, 32] : List ℤ), MIN_FLOOR ≤ f ∧ f ≤ MAX_FLOOR) ∧
    (∃ sS sF s'S s'F : Elevator, ∃ rS rF : ℚ × List ℤ,
      Elevator.init FLOOR_TRAVEL_TIME 12 [2, 9, 1, 32] false = .ok sS ∧
      FastElevator.init 12 [2, 9, 1, 32] false = .ok sF ∧
      sS.run noInterrupts = .ok (rS, s'S) ∧
      sF.run noInterrupts = .ok (rF, s'F) ∧
      s'S.travel_time = 2 * s'F.travel_time ∧
      s'F.visited_floors = s'S.visited_floors ∧
      s'F.door_operation_time = s'S.door_operation_time ∧
      s'F.passenger_transfer_time = s'S.passenger_transfer_time ∧
      rF.2 = rS.2) :=
  ⟨by decide, by decide,
    fast_profile_halves_travel 12 [2, 9, 1, 32] noInterrupts (by decide) (by decide)⟩

/-- **C10.** For every valid floor plan run in non-real-time mode, the legacy
`ElevatorSimulator` of `elevator_sim.py` and the class-based standard
`Elevator` produce identical results: the same `(total_time, visited_floors)`
pair from `run()` and the same `travel_time`, `door_operation_time` and
`passenger_transfer_time` accumulators. -/
theorem legacy_simulator_equivalence (start : ℤ) (floors : List ℤ)
    (env : ℕ → Option ℚ × Option ℚ)
    (hstart : MIN_FLOOR ≤ start ∧ start ≤ MAX_FLOOR)
    (hfl : ∀ f ∈ floors, MIN_FLOOR ≤ f ∧ f ≤ MAX_FLOOR) :
    ∃ s₀ s' : Elevator,
      Elevator.init FLOOR_TRAVEL_TIME start floors false = .ok s₀ ∧
      s₀.run env = .ok ((ElevatorSimulator.init start floors false).run.1, s') ∧
      s'.travel_time = (ElevatorSimulator.init start floors false).run.2.travel_time ∧
      s'.door_operation_time =
        (ElevatorSimulator.init start floors false).run.2.door_operation_time ∧
      s'.passenger_transfer_time =
        (ElevatorSimulator.init start floors false).run.2.passenger_transfer_time := by
  have hi := Elevator.init_ok FLOOR_TRAVEL_TIME start floors false hstart
  set s₀ : Elevator :=
    { floor_travel_time := FLOOR_TRAVEL_TIME, current_floor := start,
      floors_to_visit := floors, real_time := false, total_time := 0,
      travel_time := 0, door_operation_time := 0, passenger_transfer_time := 0,
      visited_floors := [start], close_door_pressed := false, current_state := .idle,
      skip_passenger_transfer := false, state_trace := [] } with hs₀
  have hloop := Elevator.runLoop_eq_spec floors s₀ env rfl rfl hfl
  have hrun := Elevator.run_eq s₀ (s₀.runLoopSpec floors) env hloop
  set l₀ : ElevatorSimulator := ElevatorSimulator.init start floors false with hl₀
  have htrv : (s₀.runLoopSpec floors).travel_time = (l₀.runLoop floors).travel_time := by
    rw [Elevator.runLoopSpec_travel_time, ElevatorSimulator.runLoop_travel_time]
    rfl
  have hdr : (s₀.runLoopSpec floors).door_operation_time =
      (l₀.runLoop floors).door_operation_time := by
    rw [Elevator.runLoopSpec_door_operation_time,
      ElevatorSimulator.runLoop_door_operation_time]
    rfl
  have hpt : (s₀.runLoopSpec floors).passenger_transfer_time =
      (l₀.runLoop floors).passenger_transfer_time := by
    rw [Elevator.runLoopSpec_passenger_transfer_time,
      ElevatorSimulator.runLoop_passenger_transfer_time]
    rfl
  have htot : (s₀.runLoopSpec floors).total_time = (l₀.runLoop floors).total_time := by
    rw [Elevator.runLoopSpec_total_time, ElevatorSimulator.runLoop_total_time]
    rfl
  have hvis : (s₀.runLoopSpec floors).visited_floors =
      (l₀.runLoop floors).visited_floors := by
    rw [Elevator.runLoopSpec_visited_floors, ElevatorSimulator.runLoop_visited_floors]
    rfl
  have hlr : l₀.run.1 = ((l₀.runLoop floors).total_time,
      (l₀.runLoop floors).visited_floors) := by
    rw [ElevatorSimulator.run]
    rfl
  have hlr2 : l₀.run.2 = l₀.runLoop floors := by
    rw [ElevatorSimulator.run]
    rfl
  refine ⟨s₀, s₀.runLoopSpec floors, hi, ?_, ?_, ?_, ?_⟩
  · rw [hrun, hlr, htot, hvis]
  · rw [hlr2, htrv]
  · rw [hlr2, hdr]
  · rw [hlr2, hpt]

/-- Witness for `legacy_simulator_equivalence` on the standard scenario plan. -/
theorem legacy_simulator_equivalence_witness :
    (MIN_FLOOR ≤ (12 : ℤ) ∧ (12 : ℤ) ≤ MAX_FLOOR) ∧
    (∀ f ∈ ([2, 9, 1, 32] : List ℤ), MIN_FLOOR ≤ f ∧ f ≤ MAX_FLOOR) ∧
    (∃ s₀ s' : Elevator,
      Elevator.init FLOOR_TRAVEL_TIME 12 [2, 9, 1, 32] false = .ok s₀ ∧
      s₀.run noInterrupts =
        .ok ((ElevatorSimulator.init 12 [2, 9, 1, 32] false).run.1, s') ∧
      s'.travel_time =
        (ElevatorSimulator.init 12 [2, 9, 1, 32] false).run.2.travel_time ∧
      s'.door_operation_time =
        (ElevatorSimulator.init 12 [2, 9, 1, 32] false).run.2.door_operation_time ∧
      s'.passenger_transfer_time =
        (ElevatorSimulator.init 12 [2, 9, 1, 32] false).run.2.passenger_transfer_time) :=
  ⟨by decide, by decide,
    legacy_simulator_equivalence 12 [2, 9, 1, 32] noInterrupts (by decide) (by decide)⟩

/-- **C7.** Floor validation fails exactly when `f < 1` or `f > 35` and
succeeds for all `f` in `[1, 35]`; the `current_floor` setter raises on any
non-integer value and on any out-of-range integer, so `current_floor` is
always within `[MIN_FLOOR, MAX_FLOOR]`: any successful set, any successful
construction, and any successful run loop leaves it in range. -/
theorem floor_validation_setter :
    (∀ f : ℤ, validate_floor f = .ok () ↔ (MIN_FLOOR ≤ f ∧ f ≤ MAX_FLOOR)) ∧
    (∀ f : ℤ, (∃ e, validate_floor f = .error e) ↔ (f < MIN_FLOOR ∨ f > MAX_FLOOR)) ∧
    (∀ (s : Elevator) (t : String), ∃ e, s.current_floor_setter (.nonIntVal t) = .error e) ∧
    (∀ (s : Elevator) (v : PyValue) (s' : Elevator),
      s.current_floor_setter v = .ok s' →
        (∃ n : ℤ, v = .intVal n ∧ s'.current_floor = n) ∧
        MIN_FLOOR ≤ s'.current_floor ∧ s'.current_floor ≤ MAX_FLOOR) ∧
    (∀ (ftt : ℚ) (st : ℤ) (fl : List ℤ) (rt : Bool) (s₀ : Elevator),
      Elevator.init ftt st fl rt = .ok s₀ →
        MIN_FLOOR ≤ s₀.current_floor ∧ s₀.current_floor ≤ MAX_FLOOR) ∧
    (∀ (floors : List ℤ) (s : Elevator) (env : ℕ → Option ℚ × Option ℚ) (s' : Elevator),
      s.runLoop floors env = .ok s' →
      MIN_FLOOR ≤ s.current_floor ∧ s.current_floor ≤ MAX_FLOOR →
      MIN_FLOOR ≤ s'.current_floor ∧ s'.current_floor ≤ MAX_FLOOR) := by
  refine ⟨fun f => Elevator.validate_floor_ok_iff, ?_, ?_, ?_, ?_, ?_⟩
  · intro f
    constructor
    · rintro ⟨e, he⟩
      by_contra hc
      rw [validate_floor, if_neg hc] at he
      cases he
    · intro h
      exact ⟨_, by rw [validate_floor, if_pos h]⟩
  · intro s t
    exact ⟨_, rfl⟩
  · intro s v s' h
    cases v with
    | nonIntVal t => cases h
    | intVal n =>
      rcases hval : validate_floor n with e | u
      · rw [Elevator.current_floor_setter, Elevator.set_current_floor, hval] at h
        cases h
      · cases u
        have hr := Elevator.validate_floor_ok_iff.mp hval
        rw [Elevator.current_floor_setter, Elevator.set_current_floor, hval] at h
        simp only [Elevator.ok_bind, Elevator.pure_eq_ok, Except.ok.injEq] at h
        rw [← h]
        exact ⟨⟨n, rfl, rfl⟩, hr⟩
  · intro ftt st fl rt s₀ h
    obtain ⟨hs₀, hr⟩ := Elevator.init_ok_inv _ _ _ _ _ h
    rw [hs₀]
    exact hr
  · intro floors s env s' h hcur
    exact (Elevator.runLoop_ok_inv floors s env s' h hcur).2

/-- Witness for `floor_validation_setter`: setting floor 7 on a concrete car
succeeds and lands in range. -/
theorem floor_validation_setter_witness :
    ∃ s' : Elevator, stdStart.current_floor_setter (.intVal 7) = .ok s' ∧
      (∃ n : ℤ, PyValue.intVal 7 = PyValue.intVal n ∧ s'.current_floor = n) ∧
      MIN_FLOOR ≤ s'.current_floor ∧ s'.current_floor ≤ MAX_FLOOR := by
  have h : stdStart.current_floor_setter (.intVal 7) =
      .ok { stdStart with current_floor := 7 } := rfl
  exact ⟨_, h, floor_validation_setter.2.2.2.1 stdStart (.intVal 7) _ h⟩

theorem floorsLoop_eq (input : List Char) (entries : List (List Char)) (fl : List ℤ) :
    floorsLoop input entries fl =
      if ∀ f ∈ entries, pyStrip f = [] then .ok fl
      else
        match intListOfEntries (cleanedEntries input) with
        | some l => .ok l
        | none => .error "All floors must be numbers." := by
  induction entries generalizing fl with
  | nil => simp [floorsLoop]
  | cons f rest ih =>
    rw [floorsLoop]
    by_cases hf : pyStrip f = []
    · rw [if_pos hf, ih]
      by_cases hr : ∀ g ∈ rest, pyStrip g = []
      · rw [if_pos hr, if_pos (by simpa [hf] using hr)]
      · rw [if_neg hr, if_neg (by simp [hf, hr])]
    · rw [if_neg hf]
      have hne : ¬ ∀ g ∈ f :: rest, pyStrip g = [] := by
        intro hall
        exact hf (hall f (by simp))
      rw [if_neg hne]
      rcases hc : intListOfEntries (cleanedEntries input) with _ | l
      · simp [hc]
      · simp only [hc]
        rw [ih]
        by_cases hr : ∀ g ∈ rest, pyStrip g = []
        · rw [if_pos hr]
        · rw [if_neg hr]
          simp [hc]

theorem intListOfEntries_eq_none_iff (l : List (List Char)) :
    intListOfEntries l = none ↔ ∃ e ∈ l, pyInt e = none := by
  induction l with
  | nil => simp [intListOfEntries]
  | cons e rest ih =>
    rw [intListOfEntries]
    rcases he : pyInt e with _ | n
    · simp [he]
    · rcases hr : intListOfEntries rest with _ | l'
      · simp only [hr]
        constructor
        · intro _
          rcases ih.mp hr with ⟨g, hg, hgn⟩
          exact ⟨g, by simp [hg], hgn⟩
        · intro _
          trivial
      · simp only [hr, he]
        constructor
        · intro h
          cases h
        · rintro ⟨g, hg, hgn⟩
          rcases List.mem_cons.mp hg with rfl | hg'
          · rw [he] at hgn
            cases hgn
          · have : intListOfEntries rest = none := ih.mpr ⟨g, hg', hgn⟩
            rw [hr] at this
            cases this

theorem intListOfEntries_some_length (l : List (List Char)) (r : List ℤ)
    (h : intListOfEntries l = some r) : r.length = l.length := by
  induction l generalizing r with
  | nil =>
    rw [intListOfEntries] at h
    cases h
    rfl
  | cons e rest ih =>
    rw [intListOfEntries] at h
    rcases he : pyInt e with _ | n <;> rw [he] at h
    · cases h
    · rcases hr : intListOfEntries rest with _ | l' <;> rw [hr] at h
      · cases h
      · cases h
        simp [ih l' hr]

theorem cleanedEntries_eq_nil_iff (input : List Char) :
    cleanedEntries input = [] ↔
      ∀ f ∈ splitComma (floorsStr input), pyStrip f = [] := by
  rw [cleanedEntries, List.filter_eq_nil_iff]
  constructor
  · intro h f hf
    have := h (pyStrip f) (List.mem_map_of_mem pyStrip hf)
    simpa using this
  · intro h b hb
    rcases List.mem_map.mp hb with ⟨f, hf, rfl⟩
    simpa using h f hf

theorem cleanedEntries_of_floorsStr_nil (input : List Char)
    (h : floorsStr input = []) : cleanedEntries input = [] := by
  rw [cleanedEntries, h]
  rfl

/-- Failure characterisation of `parse_input`: it raises exactly when a marker
is missing, the start value is empty or non-numeric, the floor list is empty
after stripping blank entries, or some non-blank floor entry is non-numeric. -/
theorem parse_input_error_iff (s : List Char) :
    (∃ e, parse_input s = .error e) ↔
      ((findSubstring (pyStrip s) startMarker).isNone ∨
       (findSubstring (pyStrip s) floorMarker).isNone ∨
       startFloorStr (pyStrip s) = [] ∨
       pyInt (startFloorStr (pyStrip s)) = none ∨
       cleanedEntries (pyStrip s) = [] ∨
       (∃ e ∈ cleanedEntries (pyStrip s), pyInt e = none)) := by
  rw [parse_input]
  by_cases h1 : (findSubstring (pyStrip s) startMarker).isNone ∨
      (findSubstring (pyStrip s) floorMarker).isNone
  · rw [if_pos h1]
    constructor
    · intro _
      rcases h1 with h1 | h1
      · exact .inl h1
      · exact .inr (.inl h1)
    · intro _
      exact ⟨_, rfl⟩
  · rw [if_neg h1]
    push_neg at h1
    by_cases h2 : startFloorStr (pyStrip s) = []
    · rw [if_pos h2]
      constructor
      · intro _
        exact .inr (.inr (.inl h2))
      · intro _
        exact ⟨_, rfl⟩
    · rw [if_neg h2]
      rcases h3 : pyInt (startFloorStr (pyStrip s)) with _ | st
      · simp only [h3]
        constructor
        · intro _
          exact .inr (.inr (.inr (.inl trivial)))
        · intro _
          exact ⟨_, rfl⟩
      · simp only [h3]
        by_cases h4 : floorsStr (pyStrip s) = []
        · rw [if_pos h4]
          have h5 := cleanedEntries_of_floorsStr_nil _ h4
          constructor
          · intro _
            exact .inr (.inr (.inr (.inr (.inl h5))))
          · intro _
            exact ⟨_, rfl⟩
        · rw [if_neg h4]
          have h9 := floorsLoop_eq (pyStrip s) (splitComma (floorsStr (pyStrip s))) []
          by_cases h6 : ∀ f ∈ splitComma (floorsStr (pyStrip s)), pyStrip f = []
          · rw [if_pos h6] at h9
            have h7 : cleanedEntries (pyStrip s) = [] :=
              (cleanedEntries_eq_nil_iff _).mpr h6
            simp only [h9]
            constructor
            · intro _
              exact .inr (.inr (.inr (.inr (.inl h7))))
            · intro _
              exact ⟨_, rfl⟩
          · rw [if_neg h6] at h9
            have h7 : cleanedEntries (pyStrip s) ≠ [] := fun hc =>
              h6 ((cleanedEntries_eq_nil_iff _).mp hc)
            rcases h8 : intListOfEntries (cleanedEntries (pyStrip s)) with _ | l
            · simp only [h8] at h9
              simp only [h9]
              constructor
              · intro _
                exact .inr (.inr (.inr (.inr (.inr
                  ((intListOfEntries_eq_none_iff _).mp h8)))))
              · intro _
                exact ⟨_, rfl⟩
            · simp only [h8] at h9
              have hlen := intListOfEntries_some_length _ _ h8
              have hl : l ≠ [] := by
                intro hnil
                apply h7
                rw [hnil] at hlen
                exact List.length_eq_zero.mp hlen.symm
              simp only [h9]
              constructor
              · rintro ⟨e, he⟩
                simp only [if_neg hl] at he
                exact Except.noConfusion he
              · intro hcond
                rcases hcond with hc | hc | hc | hc | hc | hc
                · exact absurd hc h1.1
                · exact absurd hc h1.2
                · exact absurd hc h2
                · cases hc
                · exact absurd hc h7
                · have hn := (intListOfEntries_eq_none_iff _).mpr hc
                  rw [h8] at hn
                  cases hn

/-- Success inversion for `parse_input`: the returned start floor is the
parsed `start=` value and the returned list is the converted non-blank
entries, in order. -/
theorem parse_input_ok_inv (s : List Char) (st : ℤ) (fl : List ℤ)
    (h : parse_input s = .ok (st, fl)) :
    pyInt (startFloorStr (pyStrip s)) = some st ∧
    intListOfEntries (cleanedEntries (pyStrip s)) = some fl := by
  rw [parse_input] at h
  by_cases h1 : (findSubstring (pyStrip s) startMarker).isNone ∨
      (findSubstring (pyStrip s) floorMarker).isNone
  · rw [if_pos h1] at h
    cases h
  · rw [if_neg h1] at h
    by_cases h2 : startFloorStr (pyStrip s) = []
    · rw [if_pos h2] at h
      cases h
    · rw [if_neg h2] at h
      rcases h3 : pyInt (startFloorStr (pyStrip s)) with _ | st'
      · simp only [h3] at h
        cases h
      · simp only [h3] at h
        by_cases h4 : floorsStr (pyStrip s) = []
        · rw [if_pos h4] at h
          cases h
        · rw [if_neg h4] at h
          have h9 := floorsLoop_eq (pyStrip s) (splitComma (floorsStr (pyStrip s))) []
          by_cases h6 : ∀ f ∈ splitComma (floorsStr (pyStrip s)), pyStrip f = []
          · rw [if_pos h6] at h9
            simp only [h9] at h
            simp at h
          · rw [if_neg h6] at h9
            rcases h8 : intListOfEntries (cleanedEntries (pyStrip s)) with _ | l
            · simp only [h8] at h9
              simp only [h9] at h
              cases h
            · simp only [h8] at h9
              simp only [h9] at h
              by_cases hl : l = []
              · rw [if_pos hl] at h
                cases h
              · rw [if_neg hl] at h
                simp only [Except.ok.injEq, Prod.mk.injEq] at h
                obtain ⟨hst, hfl2⟩ := h
                subst hst
                subst hfl2
                exact ⟨rfl, rfl⟩

/-- **C8.** For every input string, `parse_input` fails (raises) exactly when
the `start=` or `floor=` marker is missing, the start value is empty or
non-numeric, the floor list is empty after stripping blank entries, or some
non-blank floor entry is non-numeric; in particular the four invalid inputs of
the spec each fail; and on success it returns the parsed start floor and the
ordered list of integer floors with blank entries skipped. Parsing is a pure
function of the input string alone (its type involves no `Elevator`), so it
mutates no Car state. -/
theorem parse_input_failure_conditions :
    (∀ s : List Char,
      (∃ e, parse_input s = .error e) ↔
        ((findSubstring (pyStrip s) startMarker).isNone ∨
         (findSubstring (pyStrip s) floorMarker).isNone ∨
         startFloorStr (pyStrip s) = [] ∨
         pyInt (startFloorStr (pyStrip s)) = none ∨
         cleanedEntries (pyStrip s) = [] ∨
         (∃ e ∈ cleanedEntries (pyStrip s), pyInt e = none))) ∧
    (parse_input "floor=2,9".data).isOk = false ∧
    (parse_input "start=12".data).isOk = false ∧
    (parse_input "start=abc floor=2,9".data).isOk = false ∧
    (parse_input "start=12 floor=".data).isOk = false ∧
    (∀ (s : List Char) (st : ℤ) (fl : List ℤ), parse_input s = .ok (st, fl) →
      pyInt (startFloorStr (pyStrip s)) = some st ∧
      intListOfEntries (cleanedEntries (pyStrip s)) = some fl) :=
  ⟨parse_input_error_iff, by decide, by decide, by decide, by decide,
    parse_input_ok_inv⟩

/-- Witness for `parse_input_failure_conditions` at the concrete input
`"start=12 floor=2,9"`. -/
theorem parse_input_failure_conditions_witness :
    parse_input "start=12 floor=2,9".data = .ok (12, [2, 9]) ∧
    (pyInt (startFloorStr (pyStrip "start=12 floor=2,9".data)) = some 12 ∧
     intListOfEntries (cleanedEntries (pyStrip "start=12 floor=2,9".data)) =
       some [2, 9]) :=
  ⟨rfl, parse_input_failure_conditions.2.2.2.2.2 "start=12 floor=2,9".data 12 [2, 9] rfl⟩

end ElevatorSim
